import Mathlib

/-!
Shallow embedding of the PocketFlow-Template-Typescript orchestration core
(`working-async-demo.ts` async layer, `enhanced-batch-processing.ts`,
`enhanced-async-nodes.ts`) together with theorems settling the frozen claims.

Conventions of the embedding:
* JavaScript `Error` values are modelled as `String` (the message).
* A fallible `async` method is a function into `Except String _` — a rejected
  promise is `Except.error`.
* JavaScript `undefined` in a result position is modelled by `Option`:
  `none` is `undefined`.  The concrete JS value universe used in examples is
  `JSVal`; `JSVal.null` models the JS `null` value (distinct from
  `undefined`).
* Mutation of the shared store is modelled by explicit state passing:
  a method that receives the store and may write to it returns the updated
  store as part of its result.
* `exec_async` receives the attempt index (the source assigns
  `this.cur_retry = attempt` immediately before each call, so the callee can
  observe the attempt number); a node whose execute "fails on attempts
  0..k-1 and then succeeds" is a function discriminating on that index.
-/

/-- Concrete universe of JavaScript values used for concrete instances.
`JSVal.null` is the JS `null`; JS `undefined` is modelled as `Option.none`
one level up. -/
inductive JSVal where
  | null : JSVal
  | bool : Bool → JSVal
  | num : Int → JSVal
  | str : String → JSVal
deriving DecidableEq, Repr

/-- Embedding of the `AsyncNode` class of `working-async-demo.ts` (the async
layer): the four lifecycle methods plus the retry configuration inherited
from the base `Node`.  `σ` is the shared-store type, `π` the type of
prepared input, `ρ` the type of execute results (so an execute result as the
JS engine sees it is `Option ρ`, `none` being `undefined`). -/
structure AsyncNode (σ π ρ : Type) where
  max_retries : Nat
  wait : Nat
  prep_async : σ → Except String (π × σ)
  exec_async : Nat → π → Except String (Option ρ)
  exec_fallback_async : π → String → Except String (Option ρ)
  post_async : σ → π → Option ρ → Except String (Option String × σ)

/-- Outcome of the retry loop of `AsyncNode.run_async` (source lines
166-180): the JS locals `last_error` and `exec_res` at loop exit, plus the
number of times `exec_async` was invoked. -/
structure AttemptState (ρ : Type) where
  lastError : Option String
  execRes : Option ρ
  calls : Nat
deriving Repr

/-- The retry loop of `AsyncNode.run_async`:
`for (let attempt = 0; attempt < this.max_retries; attempt++) { try { exec;
break } catch { last_error = e } }`.  `attempt` is the current attempt index,
the second argument the number of remaining iterations
(`max_retries - attempt`), the third the current `last_error`.  On success
the loop `break`s — even when the resolved value is `undefined` (`none`). -/
def execAttempts (exec : Nat → Except String (Option ρ)) :
    Nat → Nat → Option String → AttemptState ρ
  | _, 0, le => ⟨le, none, 0⟩
  | attempt, fuel + 1, le =>
    match exec attempt with
    | Except.ok v => ⟨le, v, 1⟩
    | Except.error e =>
      let r := execAttempts exec (attempt + 1) fuel (some e)
      ⟨r.lastError, r.execRes, r.calls + 1⟩

/-- Embedding of `AsyncNode.run_async` (source lines 160-193): prepare, then
the retry loop, then — exactly when `last_error` is set (truthy) *and*
`exec_res === undefined` — the fallback, then post-processing.  The
surrounding `try/catch` logs and rethrows, so it is the identity on the
error path. -/
def AsyncNode.run_async (node : AsyncNode σ π ρ) (shared : σ) :
    Except String (Option String × σ) :=
  match node.prep_async shared with
  | Except.error e => Except.error e
  | Except.ok (prep_res, s1) =>
    let st := execAttempts (fun a => node.exec_async a prep_res) 0 node.max_retries none
    let execResE : Except String (Option ρ) :=
      match st.lastError, st.execRes with
      | some e, none => node.exec_fallback_async prep_res e
      | _, r => Except.ok r
    match execResE with
    | Except.error e => Except.error e
    | Except.ok exec_res => node.post_async s1 prep_res exec_res

/-- Embedding of the default `EnhancedAsyncNode.execFallback` of
`enhanced-async-nodes.ts` (lines 42-46): it logs a warning and resolves with
`null` — it does not re-raise. -/
def EnhancedAsyncNode.execFallback (prepRes : π) (error : String) :
    Except String JSVal :=
  Except.ok JSVal.null

section AttemptLemmas

variable {ρ : Type}

/-- If attempts `a0..a0+k-1` fail and attempt `a0+k` resolves with `v`
(`k` strictly below the remaining budget), the loop exits with
`exec_res = v` after exactly `k+1` invocations of `exec`. -/
theorem execAttempts_first_success (exec : Nat → Except String (Option ρ))
    (es : Nat → String) (v : Option ρ) :
    ∀ (k fuel a0 : Nat) (le : Option String), k < fuel →
      (∀ i, i < k → exec (a0 + i) = Except.error (es (a0 + i))) →
      exec (a0 + k) = Except.ok v →
      (execAttempts exec a0 fuel le).execRes = v ∧
      (execAttempts exec a0 fuel le).calls = k + 1 := by
  intro k
  induction k with
  | zero =>
    intro fuel a0 le hk _ hsucc
    match fuel, hk with
    | fuel + 1, _ =>
      simp only [execAttempts]
      rw [show a0 + 0 = a0 from rfl] at hsucc
      rw [hsucc]
      exact ⟨rfl, rfl⟩
  | succ k ih =>
    intro fuel a0 le hk hfail hsucc
    match fuel, hk with
    | fuel + 1, hk =>
      have h0 : exec a0 = Except.error (es a0) := by
        have := hfail 0 (Nat.succ_pos k)
        simpa using this
      simp only [execAttempts, h0]
      have hfail' : ∀ i, i < k → exec (a0 + 1 + i) = Except.error (es (a0 + 1 + i)) := by
        intro i hi
        have := hfail (i + 1) (Nat.succ_lt_succ hi)
        rw [show a0 + (i + 1) = a0 + 1 + i by omega] at this
        exact this
      have hsucc' : exec (a0 + 1 + k) = Except.ok v := by
        rw [show a0 + 1 + k = a0 + (k + 1) by omega]
        exact hsucc
      have := ih fuel (a0 + 1) (some (es a0)) (Nat.lt_of_succ_lt_succ hk) hfail' hsucc'
      exact ⟨this.1, by simp [this.2]⟩

/-- If every attempt in the budget fails, the loop exits with
`last_error` the error of the final attempt, `exec_res` still `undefined`,
after exactly `fuel` invocations. -/
theorem execAttempts_all_fail (exec : Nat → Except String (Option ρ)) :
    ∀ (fuel a0 : Nat) (es : Nat → String) (le : Option String), 0 < fuel →
      (∀ i, i < fuel → exec (a0 + i) = Except.error (es i)) →
      execAttempts exec a0 fuel le =
        ⟨some (es (fuel - 1)), none, fuel⟩ := by
  intro fuel
  induction fuel with
  | zero => intro a0 es le h; exact absurd h (by omega)
  | succ fuel ih =>
    intro a0 es le _ hfail
    have h0 : exec a0 = Except.error (es 0) := by
      have := hfail 0 (Nat.succ_pos fuel)
      simpa using this
    simp only [execAttempts, h0]
    cases fuel with
    | zero => simp [execAttempts]
    | succ f =>
      have hfail' : ∀ i, i < f + 1 → exec (a0 + 1 + i) = Except.error ((fun i => es (i + 1)) i) := by
        intro i hi
        have := hfail (i + 1) (Nat.succ_lt_succ hi)
        rw [show a0 + (i + 1) = a0 + 1 + i by omega] at this
        exact this
      have := ih (a0 + 1) (fun i => es (i + 1)) (some (es 0)) (Nat.succ_pos f) hfail'
      rw [this]
      simp

end AttemptLemmas

/-- A node wired into a flow: the JS node object carries its `id` (used as
the key prefix of the transition map) alongside its lifecycle methods. -/
structure FlowNode (σ π ρ : Type) where
  id : String
  node : AsyncNode σ π ρ

/-- Embedding of the `AsyncFlow` class: the optional start node and the
transition map `Map<string, Node>` keyed by `` `${id}_${action}` ``,
modelled as an association list. -/
structure AsyncFlow (σ π ρ : Type) where
  start : Option (FlowNode σ π ρ)
  transitions : List (String × FlowNode σ π ρ)

/-- Result of a (fuel-bounded) flow run.  `ok` carries the final shared
store, the action value held by `current_action` when the `while` loop
exited (`none` when a node post-processed to the terminal sentinel, `some a`
when no transition matched `a`), and the list of ids of the nodes invoked,
in order.  `err` is a rejected run.  `fuelOut` means the bound was reached
before the JS loop exited (the source loop itself has no bound and may not
terminate on cyclic graphs). -/
inductive FlowOutcome (σ : Type) where
  | ok : σ → Option String → List String → FlowOutcome σ
  | err : String → List String → FlowOutcome σ
  | fuelOut : σ → List String → FlowOutcome σ
deriving Repr

/-- Prefix a node id onto the visited-node trace of an outcome. -/
def FlowOutcome.addVisit (i : String) : FlowOutcome σ → FlowOutcome σ
  | FlowOutcome.ok s a v => FlowOutcome.ok s a (i :: v)
  | FlowOutcome.err e v => FlowOutcome.err e (i :: v)
  | FlowOutcome.fuelOut s v => FlowOutcome.fuelOut s (i :: v)

/-- JavaScript `x || y` on the two transition-map lookups (a `Map.get` miss
is `undefined`, which is falsy; a node object is always truthy). -/
def jsOr (x y : Option α) : Option α :=
  match x with
  | some v => some v
  | none => y

/-- The `while (current_node)` loop of `AsyncFlow.run_async` (source lines
223-247): run the current node, stop on the terminal sentinel, otherwise
look up `` `${id}_${action}` `` falling back to `` `${id}_default` ``; an
error from the node is logged and rethrown.  The first argument bounds the
number of iterations. -/
def AsyncFlow.runLoop (flow : AsyncFlow σ π ρ) :
    Nat → FlowNode σ π ρ → σ → FlowOutcome σ
  | 0, _, s => FlowOutcome.fuelOut s []
  | fuel + 1, cur, s =>
    match cur.node.run_async s with
    | Except.error e => FlowOutcome.err e [cur.id]
    | Except.ok (none, s1) => FlowOutcome.ok s1 none [cur.id]
    | Except.ok (some a, s1) =>
      match jsOr (flow.transitions.lookup (cur.id ++ "_" ++ a))
                 (flow.transitions.lookup (cur.id ++ "_default")) with
      | none => FlowOutcome.ok s1 (some a) [cur.id]
      | some nxt => (flow.runLoop fuel nxt s1).addVisit cur.id

/-- Embedding of `AsyncFlow.run_async` (source lines 215-248): throw when no
start node is defined, else drive the loop from the start node. -/
def AsyncFlow.run_async (flow : AsyncFlow σ π ρ) (fuel : Nat) (shared : σ) :
    FlowOutcome σ :=
  match flow.start with
  | none => FlowOutcome.err "AsyncFlow: No start node defined" []
  | some st => flow.runLoop fuel st shared

/-- Embedding of `AsyncBatchNode.exec_async` (source lines 277-286):
sequentially await `process_item_async` on each item, pushing the results in
order; a rejection of any item rejects the whole batch execute. -/
def AsyncBatchNode.exec_async (process_item_async : α → Except String β) :
    List α → Except String (List β)
  | [] => Except.ok []
  | x :: xs =>
    match process_item_async x with
    | Except.error e => Except.error e
    | Except.ok y =>
      match AsyncBatchNode.exec_async process_item_async xs with
      | Except.error e => Except.error e
      | Except.ok ys => Except.ok (y :: ys)

/-- One settled item of `Promise.allSettled` in
`AsyncParallelBatchNode.exec_async` (source lines 373-381): a fulfilled
item contributes its value, a rejected one is logged and contributes the
`null` placeholder (`none` here). -/
def AsyncParallelBatchNode.settleItem (process_item_async : α → Except String β)
    (x : α) : Option β :=
  match process_item_async x with
  | Except.ok v => some v
  | Except.error _ => none

/-- The chunked loop of `AsyncParallelBatchNode.exec_async` (source lines
366-382): `for (let i = 0; i < items.length; i += limit)` process the slice
`items.slice(i, i + limit)` with `allSettled` and append the settled
results in order.  The first argument bounds the number of chunk
iterations (with a positive `limit` the JS loop runs at most
`items.length` iterations; with `limit = 0` it never advances). -/
def AsyncParallelBatchNode.chunkLoop (process_item_async : α → Except String β)
    (limit : Nat) : Nat → List α → List (Option β)
  | 0, _ => []
  | _, [] => []
  | fuel + 1, x :: xs =>
    ((x :: xs).take limit).map (AsyncParallelBatchNode.settleItem process_item_async) ++
      AsyncParallelBatchNode.chunkLoop process_item_async limit fuel ((x :: xs).drop limit)

/-- Embedding of `AsyncParallelBatchNode.exec_async` (source lines 361-385):
the chunk loop started with enough budget for a positive concurrency
limit. -/
def AsyncParallelBatchNode.exec_async (process_item_async : α → Except String β)
    (limit : Nat) (items : List α) : List (Option β) :=
  AsyncParallelBatchNode.chunkLoop process_item_async limit items.length items

/-- With a positive concurrency limit the chunk loop settles every item in
input order: it equals a plain map of `settleItem`. -/
theorem chunkLoop_eq_map (f : α → Except String β) (limit : Nat)
    (hl : 0 < limit) :
    ∀ (fuel : Nat) (items : List α), items.length ≤ fuel →
      AsyncParallelBatchNode.chunkLoop f limit fuel items =
        items.map (AsyncParallelBatchNode.settleItem f) := by
  intro fuel
  induction fuel with
  | zero =>
    intro items hlen
    match items, hlen with
    | [], _ => rfl
  | succ fuel ih =>
    intro items hlen
    match items with
    | [] => rfl
    | x :: xs =>
      simp only [AsyncParallelBatchNode.chunkLoop]
      have hdrop : ((x :: xs).drop limit).length ≤ fuel := by
        simp only [List.length_drop, List.length_cons] at *
        omega
      rw [ih ((x :: xs).drop limit) hdrop]
      rw [← List.map_append, List.take_append_drop]

/-- With a positive concurrency limit, parallel batch execution maps
`settleItem` over the items in input order. -/
theorem parallel_exec_eq_map (f : α → Except String β) (limit : Nat)
    (hl : 0 < limit) (items : List α) :
    AsyncParallelBatchNode.exec_async f limit items =
      items.map (AsyncParallelBatchNode.settleItem f) :=
  chunkLoop_eq_map f limit hl items.length items (Nat.le_refl _)

/-- The batch-processor interface consumed by `EnhancedBatchFlow` of
`enhanced-batch-processing.ts`: `prep` extracts the items from the shared
store (the class's `prep` is `getInputItems(shared)`, which does not write),
`exec` processes one item, `execFallback` is the optional per-item recovery
(the source guards `if (this.batchProcessor.execFallback)`), and `post`
aggregates.  The third argument of `post` is the `execRes` argument as the
JS caller passes it: possibly `undefined` (`none`). -/
structure EnhancedBatchProcessor (σ α β : Type) where
  prep : σ → Except String (List α)
  exec : α → Except String β
  execFallback : Option (α → String → Except String β)
  post : σ → List α → Option (List β) → Except String (Option String × σ)

/-- The per-item loop of `EnhancedBatchFlow.runWithDelays` (source lines
44-62): await `exec` on each item in order; on a rejection, use
`execFallback` when it exists (its rejection rejects the run), otherwise
rethrow the item's error, aborting the batch.  (The inter-item
`setTimeout` delay has no effect on values and is not modelled.) -/
def EnhancedBatchFlow.delayLoop (exec : α → Except String β)
    (fallback : Option (α → String → Except String β)) :
    List α → Except String (List β)
  | [] => Except.ok []
  | x :: xs =>
    match exec x with
    | Except.ok r =>
      match EnhancedBatchFlow.delayLoop exec fallback xs with
      | Except.error e => Except.error e
      | Except.ok rs => Except.ok (r :: rs)
    | Except.error e =>
      match fallback with
      | some fb =>
        match fb x e with
        | Except.error e1 => Except.error e1
        | Except.ok r =>
          match EnhancedBatchFlow.delayLoop exec fallback xs with
          | Except.error e1 => Except.error e1
          | Except.ok rs => Except.ok (r :: rs)
      | none => Except.error e

/-- Embedding of `EnhancedBatchFlow.runWithDelays` (source lines 36-65):
prepare the items; when the item list is empty, short-circuit to
`post(shared, [], undefined)` — note the `undefined` third argument —
otherwise run the per-item loop and call `post(shared, items, results)`. -/
def EnhancedBatchFlow.runWithDelays (proc : EnhancedBatchProcessor σ α β)
    (shared : σ) : Except String (Option String × σ) :=
  match proc.prep shared with
  | Except.error e => Except.error e
  | Except.ok items =>
    if items.length = 0 then
      proc.post shared [] none
    else
      match EnhancedBatchFlow.delayLoop proc.exec proc.execFallback items with
      | Except.error e => Except.error e
      | Except.ok results => proc.post shared items (some results)

/-- Per-item try-with-fallback semantics: `exec` each item, recovering a
rejected item with `fb`.  The per-item policy `delayLoop` implements when a
fallback is present. -/
def tryMapWithFallback (exec : α → Except String β)
    (fb : α → String → Except String β) : List α → Except String (List β)
  | [] => Except.ok []
  | x :: xs =>
    match (match exec x with
           | Except.ok r => Except.ok r
           | Except.error e => fb x e) with
    | Except.error e1 => Except.error e1
    | Except.ok r =>
      match tryMapWithFallback exec fb xs with
      | Except.error e1 => Except.error e1
      | Except.ok rs => Except.ok (r :: rs)

/-- The loop of `AsyncBatchFlow.exec_async` (source lines 322-330): for each
parameter set, build the flow instance (`create_flow_instance` returns
`this`, ignoring the parameters) and run it against `this.shared || {}` —
when no stored shared object is set, a freshly created empty object each
iteration.  A rejected run rejects `exec_async`, skipping the remaining
iterations; resolved iterations contribute their outcome to the trace. -/
def AsyncBatchFlow.execLoop (flow : AsyncFlow σ π ρ) (fuel : Nat)
    (sharedField : Option σ) (emptyStore : σ) :
    List (List (String × JSVal)) → Except String (List (FlowOutcome σ))
  | [] => Except.ok []
  | _params :: rest =>
    match flow.run_async fuel (sharedField.getD emptyStore) with
    | FlowOutcome.err e _ => Except.error e
    | out =>
      match AsyncBatchFlow.execLoop flow fuel sharedField emptyStore rest with
      | Except.error e => Except.error e
      | Except.ok outs => Except.ok (out :: outs)

/-- Embedding of `AsyncBatchFlow.exec_async` over a list of parameter sets
(each a record of string keys to values). -/
def AsyncBatchFlow.exec_async (flow : AsyncFlow σ π ρ) (fuel : Nat)
    (sharedField : Option σ) (emptyStore : σ)
    (prep_res : List (List (String × JSVal))) :
    Except String (List (FlowOutcome σ)) :=
  AsyncBatchFlow.execLoop flow fuel sharedField emptyStore prep_res

section RunShape

variable {σ π ρ : Type}

/-- When preparation succeeds and the retry loop exits with a defined
`exec_res`, `run_async` skips the fallback and post-processes that value. -/
theorem run_async_no_fallback (node : AsyncNode σ π ρ) (shared : σ)
    (p : π) (s1 : σ) (v : ρ)
    (hprep : node.prep_async shared = Except.ok (p, s1))
    (hres : (execAttempts (fun a => node.exec_async a p) 0 node.max_retries none).execRes
      = some v) :
    node.run_async shared = node.post_async s1 p (some v) := by
  cases hle : (execAttempts (fun a => node.exec_async a p) 0 node.max_retries none).lastError with
  | none => simp [AsyncNode.run_async, hprep, hres, hle]
  | some e => simp [AsyncNode.run_async, hprep, hres, hle]

/-- When preparation succeeds, the retry loop exits with `last_error` set
and `exec_res` still `undefined`, `run_async` pipes the fallback's outcome
into post-processing (and propagates a fallback rejection). -/
theorem run_async_fallback_shape (node : AsyncNode σ π ρ) (shared : σ)
    (p : π) (s1 : σ) (e : String)
    (hprep : node.prep_async shared = Except.ok (p, s1))
    (hle : (execAttempts (fun a => node.exec_async a p) 0 node.max_retries none).lastError
      = some e)
    (hres : (execAttempts (fun a => node.exec_async a p) 0 node.max_retries none).execRes
      = (none : Option ρ)) :
    node.run_async shared =
      match node.exec_fallback_async p e with
      | Except.error e1 => Except.error e1
      | Except.ok r => node.post_async s1 p r := by
  simp [AsyncNode.run_async, hprep, hres, hle]

end RunShape

/-! ### Concrete instances for counterexamples and witnesses

Shared stores in the concrete instances are plain `Nat` counters or
association lists; prepared inputs and execute results live in
`Option JSVal` / `JSVal`. -/

/-- A node with `max_retries = 2` whose execute rejects on attempt 0 and
then *succeeds resolving `undefined`* on attempt 1; its fallback is the
default re-raise and its post returns the action `"done"`. -/
def c1CexNode : AsyncNode Nat (Option JSVal) JSVal where
  max_retries := 2
  wait := 0
  prep_async := fun s => Except.ok (none, s)
  exec_async := fun attempt _ =>
    if attempt = 0 then Except.error "transient failure" else Except.ok none
  exec_fallback_async := fun _ e => Except.error e
  post_async := fun s _ _ => Except.ok (some "done", s)

/-- `c1CexNode` with its fallback replaced by one resolving `"fb"`. -/
def c1CexNodeFb : AsyncNode Nat (Option JSVal) JSVal :=
  { c1CexNode with exec_fallback_async := fun _ _ => Except.ok (some (JSVal.str "fb")) }

/-- C1, counterexample.  `c1CexNode` has `maxRetries = 2 > 1` and an execute
phase that fails on exactly `k = 1 < 2` attempt and then succeeds (with the
value `undefined`).  The claim says the run passes the successful value to
post-processing (which would resolve `(some "done", 0)`) and never invokes
the fallback; in fact the run rejects with the attempt-0 error because the
`exec_res === undefined` guard treats the successful `undefined` as absent
and invokes the (re-raising) fallback — and swapping in a different fallback
changes the outcome, so the fallback is invoked. -/
theorem c1_counterexample :
    c1CexNode.run_async 0 = Except.error "transient failure" ∧
    c1CexNodeFb.run_async 0 = Except.ok (some "done", 0) := by
  constructor <;> rfl

/-- C1 (amended): for a node with `maxRetries = n > 1` whose execute fails
on exactly `k < n` attempts and then succeeds *with a defined (non-
`undefined`) value*, `run_async` passes the successful value to
post-processing, invokes execute exactly `k+1` times, and never invokes the
fallback (the run is unchanged under any replacement of the fallback). -/
theorem c1_amended (node : AsyncNode σ π ρ) (shared : σ)
    (p : π) (s1 : σ) (k : Nat) (v : ρ) (es : Nat → String)
    (hn : 1 < node.max_retries) (hk : k < node.max_retries)
    (hprep : node.prep_async shared = Except.ok (p, s1))
    (hfail : ∀ i, i < k → node.exec_async i p = Except.error (es i))
    (hsucc : node.exec_async k p = Except.ok (some v)) :
    node.run_async shared = node.post_async s1 p (some v) ∧
    (execAttempts (fun a => node.exec_async a p) 0 node.max_retries none).calls = k + 1 ∧
    ∀ g, AsyncNode.run_async { node with exec_fallback_async := g } shared
      = node.run_async shared := by
  have hfail0 : ∀ i, i < k →
      (fun a => node.exec_async a p) (0 + i) = Except.error (es (0 + i)) := by
    intro i hi
    simpa using hfail i hi
  have hsucc0 : (fun a => node.exec_async a p) (0 + k) = Except.ok (some v) := by
    simpa using hsucc
  have hfs := execAttempts_first_success (fun a => node.exec_async a p)
    (fun i => es i) (some v) k node.max_retries 0 none hk hfail0 hsucc0
  have hmain := run_async_no_fallback node shared p s1 v hprep hfs.1
  refine ⟨hmain, hfs.2, ?_⟩
  intro g
  have hmod := run_async_no_fallback { node with exec_fallback_async := g }
    shared p s1 v hprep hfs.1
  rw [hmod, hmain]

/-- A node with `max_retries = 3` whose execute rejects on attempt 0 and
resolves the number 7 from attempt 1 on. -/
def c1WitnessNode : AsyncNode Nat (Option JSVal) JSVal where
  max_retries := 3
  wait := 0
  prep_async := fun s => Except.ok (some (JSVal.str "q"), s)
  exec_async := fun attempt _ =>
    if attempt = 0 then Except.error "flaky" else Except.ok (some (JSVal.num 7))
  exec_fallback_async := fun _ e => Except.error e
  post_async := fun s _ r =>
    Except.ok (some (if r = some (JSVal.num 7) then "ok7" else "other"), s + 1)

/-- C1 witness: the amended theorem applied to `c1WitnessNode` with `k = 1`. -/
theorem c1_amended_witness :
    c1WitnessNode.run_async 5 = Except.ok (some "ok7", 6) ∧
    (execAttempts (fun a => c1WitnessNode.exec_async a (some (JSVal.str "q")))
      0 c1WitnessNode.max_retries none).calls = 2 := by
  have h := c1_amended c1WitnessNode 5 (some (JSVal.str "q")) 5 1 (JSVal.num 7)
    (fun _ => "flaky") (by decide) (by decide) rfl
    (by intro i hi; interval_cases i; rfl) rfl
  exact ⟨h.1.trans rfl, h.2.1⟩

/-- C7: for a node with `maxRetries = 1`, a single rejection of the execute
phase invokes the fallback immediately — the run is the fallback's outcome
piped into post-processing, with execute invoked exactly once (no retry
before the fallback). -/
theorem c7_single_failure_immediate_fallback (node : AsyncNode σ π ρ)
    (shared : σ) (p : π) (s1 : σ) (e : String)
    (h1 : node.max_retries = 1)
    (hprep : node.prep_async shared = Except.ok (p, s1))
    (hfail : node.exec_async 0 p = Except.error e) :
    node.run_async shared =
      (match node.exec_fallback_async p e with
       | Except.error e1 => Except.error e1
       | Except.ok r => node.post_async s1 p r) ∧
    (execAttempts (fun a => node.exec_async a p) 0 node.max_retries none).calls = 1 := by
  have hall := execAttempts_all_fail (fun a => node.exec_async a p) 1 0
    (fun _ => e) none (by decide)
    (by intro i hi; interval_cases i; simpa using hfail)
  constructor
  · exact run_async_fallback_shape node shared p s1 e hprep
      (by rw [h1, hall]) (by rw [h1, hall])
  · rw [h1, hall]

/-- A node with `max_retries = 1` whose sole execute attempt rejects and
whose fallback resolves `"degraded"`. -/
def c7WitnessNode : AsyncNode Nat (Option JSVal) JSVal where
  max_retries := 1
  wait := 0
  prep_async := fun s => Except.ok (some (JSVal.num 1), s)
  exec_async := fun _ _ => Except.error "first failure"
  exec_fallback_async := fun _ _ => Except.ok (some (JSVal.str "degraded"))
  post_async := fun s _ r =>
    Except.ok (some (if r = some (JSVal.str "degraded") then "recovered" else "other"), s)

/-- C7 witness: the theorem applied to `c7WitnessNode`. -/
theorem c7_witness :
    c7WitnessNode.run_async 0 = Except.ok (some "recovered", 0) ∧
    (execAttempts (fun a => c7WitnessNode.exec_async a (some (JSVal.num 1)))
      0 c7WitnessNode.max_retries none).calls = 1 := by
  have h := c7_single_failure_immediate_fallback c7WitnessNode 0
    (some (JSVal.num 1)) 0 "first failure" rfl rfl rfl
  exact ⟨h.1.trans rfl, h.2⟩

/-- C5, counterexample.  The default `EnhancedAsyncNode.execFallback`
(`enhanced-async-nodes.ts` lines 42-46) does not re-raise the last error: it
resolves with `null`, so a node of that class with no overridden fallback
degrades instead of failing — contradicting the claim that the default
fallback re-raises. -/
theorem c5_counterexample :
    EnhancedAsyncNode.execFallback (JSVal.str "prep") "boom" = Except.ok JSVal.null ∧
    EnhancedAsyncNode.execFallback (JSVal.str "prep") "boom" ≠ Except.error "boom" := by
  refine ⟨rfl, ?_⟩
  intro h
  exact Except.noConfusion h

/-- C5 (amended): when every execute attempt of an `AsyncNode` rejects, the
engine invokes the fallback with the prepared input and the last attempt's
error (visible in the run's outcome for an arbitrary fallback `g`), and
`AsyncNode`'s default re-raising fallback makes the run fail with that last
error; `EnhancedAsyncNode`'s default `execFallback`, by contrast, resolves
`null` rather than re-raising. -/
theorem c5_amended (node : AsyncNode σ π ρ) (shared : σ) (p : π) (s1 : σ)
    (es : Nat → String)
    (hpos : 0 < node.max_retries)
    (hprep : node.prep_async shared = Except.ok (p, s1))
    (hfail : ∀ i, i < node.max_retries → node.exec_async i p = Except.error (es i))
    (hdef : node.exec_fallback_async = fun _ e => Except.error e) :
    node.run_async shared = Except.error (es (node.max_retries - 1)) ∧
    (∀ g, AsyncNode.run_async { node with exec_fallback_async := g } shared =
      match g p (es (node.max_retries - 1)) with
      | Except.error e1 => Except.error e1
      | Except.ok r => node.post_async s1 p r) ∧
    EnhancedAsyncNode.execFallback (JSVal.str "x") "boom" = Except.ok JSVal.null := by
  have hall := execAttempts_all_fail (fun a => node.exec_async a p)
    node.max_retries 0 es none hpos
    (by intro i hi; simpa using hfail i hi)
  refine ⟨?_, ?_, rfl⟩
  · have h := run_async_fallback_shape node shared p s1 (es (node.max_retries - 1))
      hprep (by rw [hall]) (by rw [hall])
    rw [h, hdef]
  · intro g
    exact run_async_fallback_shape { node with exec_fallback_async := g }
      shared p s1 (es (node.max_retries - 1)) hprep (by rw [hall]) (by rw [hall])

/-- A node with `max_retries = 2` whose execute rejects on both attempts
(with distinct errors) and the default re-raising fallback. -/
def c5WitnessNode : AsyncNode Nat (Option JSVal) JSVal where
  max_retries := 2
  wait := 0
  prep_async := fun s => Except.ok (none, s)
  exec_async := fun attempt _ => Except.error (if attempt = 0 then "e0" else "e1")
  exec_fallback_async := fun _ e => Except.error e
  post_async := fun s _ _ => Except.ok (some "post", s)

/-- C5 witness: the amended theorem applied to `c5WitnessNode` — the run
fails with the *last* attempt's error, and with a degrading fallback
substituted, the run resolves through post-processing instead. -/
theorem c5_amended_witness :
    c5WitnessNode.run_async 0 = Except.error "e1" ∧
    AsyncNode.run_async
      { c5WitnessNode with
        exec_fallback_async := fun _ _ => Except.ok (some (JSVal.str "degraded")) } 0
      = Except.ok (some "post", 0) := by
  have h := c5_amended c5WitnessNode 0 none 0
    (fun i => if i = 0 then "e0" else "e1") (by decide) rfl
    (by intro i hi; have h2 : i < 2 := hi; interval_cases i <;> rfl) rfl
  exact ⟨h.1.trans rfl,
    (h.2.1 (fun _ _ => Except.ok (some (JSVal.str "degraded")))).trans rfl⟩

/-- C6: when a node's retry budget is exhausted and its fallback also
rejects (the default, non-overridden fallback is the special case
`e1 = es (maxRetries - 1)`), the error propagates unchanged through both
layers: `run_async` rejects with exactly the fallback's error, and the flow
driver re-raises it — no swallowing, no partial result. -/
theorem c6_error_propagates (flow : AsyncFlow σ π ρ) (fuel : Nat)
    (cur : FlowNode σ π ρ) (shared : σ) (p : π) (s1 : σ)
    (es : Nat → String) (e1 : String)
    (hpos : 0 < cur.node.max_retries)
    (hprep : cur.node.prep_async shared = Except.ok (p, s1))
    (hfail : ∀ i, i < cur.node.max_retries →
      cur.node.exec_async i p = Except.error (es i))
    (hfb : cur.node.exec_fallback_async p (es (cur.node.max_retries - 1))
      = Except.error e1) :
    cur.node.run_async shared = Except.error e1 ∧
    flow.runLoop (fuel + 1) cur shared = FlowOutcome.err e1 [cur.id] := by
  have hall := execAttempts_all_fail (fun a => cur.node.exec_async a p)
    cur.node.max_retries 0 es none hpos
    (by intro i hi; simpa using hfail i hi)
  have hrun : cur.node.run_async shared = Except.error e1 := by
    have h := run_async_fallback_shape cur.node shared p s1
      (es (cur.node.max_retries - 1)) hprep (by rw [hall]) (by rw [hall])
    rw [h, hfb]
  exact ⟨hrun, by simp [AsyncFlow.runLoop, hrun]⟩

/-- A flow whose sole node always rejects (one attempt, default
re-raising fallback). -/
def c6WitnessNode : FlowNode Nat (Option JSVal) JSVal where
  id := "failing"
  node :=
    { max_retries := 1
      wait := 0
      prep_async := fun s => Except.ok (none, s)
      exec_async := fun _ _ => Except.error "fatal"
      exec_fallback_async := fun _ e => Except.error e
      post_async := fun s _ _ => Except.ok (none, s) }

/-- The flow wrapping `c6WitnessNode` with no outgoing transitions. -/
def c6WitnessFlow : AsyncFlow Nat (Option JSVal) JSVal where
  start := some c6WitnessNode
  transitions := []

/-- C6 witness: the theorem applied to `c6WitnessFlow`. -/
theorem c6_witness :
    c6WitnessNode.node.run_async 0 = Except.error "fatal" ∧
    c6WitnessFlow.runLoop 3 c6WitnessNode 0 = FlowOutcome.err "fatal" ["failing"] := by
  exact c6_error_propagates c6WitnessFlow 2 c6WitnessNode 0 none 0
    (fun _ => "fatal") "fatal" (by decide) rfl
    (by intro i hi; have h1 : i < 1 := hi; interval_cases i; rfl) rfl

/-- C2: routing of the flow driver.  When the current node post-processes to
the terminal sentinel (`undefined`), the run resolves immediately with only
that node invoked; otherwise the next node is the edge registered for the
returned action, falling back to the node's `"default"` edge when no edge
matches, and the run terminates (resolving, not rejecting) when neither
edge exists.  The last conjunct lifts the sentinel case to `run_async` at
the start node. -/
theorem c2_flow_routing (flow : AsyncFlow σ π ρ) (fuel : Nat)
    (cur : FlowNode σ π ρ) (s : σ) :
    (∀ s1, cur.node.run_async s = Except.ok (none, s1) →
      flow.runLoop (fuel + 1) cur s = FlowOutcome.ok s1 none [cur.id]) ∧
    (∀ a s1 nxt, cur.node.run_async s = Except.ok (some a, s1) →
      flow.transitions.lookup (cur.id ++ "_" ++ a) = some nxt →
      flow.runLoop (fuel + 1) cur s = (flow.runLoop fuel nxt s1).addVisit cur.id) ∧
    (∀ a s1 nxt, cur.node.run_async s = Except.ok (some a, s1) →
      flow.transitions.lookup (cur.id ++ "_" ++ a) = none →
      flow.transitions.lookup (cur.id ++ "_default") = some nxt →
      flow.runLoop (fuel + 1) cur s = (flow.runLoop fuel nxt s1).addVisit cur.id) ∧
    (∀ a s1, cur.node.run_async s = Except.ok (some a, s1) →
      flow.transitions.lookup (cur.id ++ "_" ++ a) = none →
      flow.transitions.lookup (cur.id ++ "_default") = none →
      flow.runLoop (fuel + 1) cur s = FlowOutcome.ok s1 (some a) [cur.id]) ∧
    (∀ s1, flow.start = some cur → cur.node.run_async s = Except.ok (none, s1) →
      flow.run_async (fuel + 1) s = FlowOutcome.ok s1 none [cur.id]) := by
  refine ⟨?_, ?_, ?_, ?_, ?_⟩
  · intro s1 hrun
    simp [AsyncFlow.runLoop, hrun]
  · intro a s1 nxt hrun hlook
    simp [AsyncFlow.runLoop, hrun, jsOr, hlook]
  · intro a s1 nxt hrun hlook hdef
    simp [AsyncFlow.runLoop, hrun, jsOr, hlook, hdef]
  · intro a s1 hrun hlook hdef
    simp [AsyncFlow.runLoop, hrun, jsOr, hlook, hdef]
  · intro s1 hstart hrun
    simp [AsyncFlow.run_async, hstart, AsyncFlow.runLoop, hrun]

/-- A node posting the action `"go"` without touching the store. -/
def c2NodeA : FlowNode (List (String × JSVal)) (Option JSVal) JSVal where
  id := "A"
  node :=
    { max_retries := 1
      wait := 0
      prep_async := fun s => Except.ok (none, s)
      exec_async := fun _ p => Except.ok p
      exec_fallback_async := fun _ e => Except.error e
      post_async := fun s _ _ => Except.ok (some "go", s) }

/-- A node recording `done := true` and posting the terminal sentinel. -/
def c2NodeB : FlowNode (List (String × JSVal)) (Option JSVal) JSVal where
  id := "B"
  node :=
    { max_retries := 1
      wait := 0
      prep_async := fun s => Except.ok (none, s)
      exec_async := fun _ p => Except.ok p
      exec_fallback_async := fun _ e => Except.error e
      post_async := fun s _ _ => Except.ok (none, ("done", JSVal.bool true) :: s) }

/-- The two-node flow `A --go--> B`. -/
def c2WitnessFlow : AsyncFlow (List (String × JSVal)) (Option JSVal) JSVal where
  start := some c2NodeA
  transitions := [("A_go", c2NodeB)]

/-- C2 witness: the routing theorem applied to `c2WitnessFlow` — from `A`
the edge for `"go"` is taken, and at `B` the terminal sentinel stops the
run with no further node invoked. -/
theorem c2_witness :
    c2WitnessFlow.runLoop 2 c2NodeA []
      = FlowOutcome.ok [("done", JSVal.bool true)] none ["A", "B"] ∧
    c2WitnessFlow.runLoop 2 c2NodeB []
      = FlowOutcome.ok [("done", JSVal.bool true)] none ["B"] := by
  have hA := c2_flow_routing c2WitnessFlow 1 c2NodeA ([] : List (String × JSVal))
  have hB := c2_flow_routing c2WitnessFlow 1 c2NodeB ([] : List (String × JSVal))
  exact ⟨(hA.2.1 "go" [] c2NodeB rfl rfl).trans rfl, hB.1 [("done", JSVal.bool true)] rfl⟩

/-- C9: two-run determinism of the flow driver.  Running the same flow with
the same budget on two structurally identical stores yields identical
outcomes; in particular, when both runs resolve, their terminal actions and
final store contents coincide. -/
theorem c9_two_run_determinism (flow : AsyncFlow σ π ρ) (fuel : Nat)
    (s1 s2 : σ) (hstores : s1 = s2) :
    flow.run_async fuel s1 = flow.run_async fuel s2 ∧
    ∀ sh1 a1 v1 sh2 a2 v2,
      flow.run_async fuel s1 = FlowOutcome.ok sh1 a1 v1 →
      flow.run_async fuel s2 = FlowOutcome.ok sh2 a2 v2 →
      a1 = a2 ∧ sh1 = sh2 := by
  subst hstores
  refine ⟨rfl, ?_⟩
  intro sh1 a1 v1 sh2 a2 v2 h1 h2
  rw [h1] at h2
  cases h2
  exact ⟨rfl, rfl⟩

/-- C9 witness: the determinism theorem applied to `c2WitnessFlow` on two
separately written, structurally identical stores. -/
theorem c9_witness :
    c2WitnessFlow.run_async 2 [("q", JSVal.str "hi")]
      = c2WitnessFlow.run_async 2 [("q", JSVal.str ("h" ++ "i"))] :=
  (c9_two_run_determinism c2WitnessFlow 2 [("q", JSVal.str "hi")]
    [("q", JSVal.str ("h" ++ "i"))] rfl).1

/-- Sequential batch execution, when it resolves, yields one result per
item in input order: `rs[i]` is exactly the value `process_item_async`
resolved for `items[i]`. -/
theorem seq_exec_ok_spec (f : α → Except String β) :
    ∀ (items : List α) (rs : List β),
      AsyncBatchNode.exec_async f items = Except.ok rs →
      rs.length = items.length ∧
      ∀ i : Nat, rs[i]? = (items[i]?).bind (fun x => (f x).toOption) := by
  intro items
  induction items with
  | nil =>
    intro rs h
    simp only [AsyncBatchNode.exec_async] at h
    cases h
    simp
  | cons x xs ih =>
    intro rs h
    simp only [AsyncBatchNode.exec_async] at h
    cases hf : f x with
    | error e => rw [hf] at h; cases h
    | ok y =>
      rw [hf] at h
      cases hrec : AsyncBatchNode.exec_async f xs with
      | error e => rw [hrec] at h; cases h
      | ok ys =>
        rw [hrec] at h
        cases h
        obtain ⟨hlen, hidx⟩ := ih ys hrec
        refine ⟨by simp [hlen], ?_⟩
        intro i
        cases i with
        | zero => simp [hf, Except.toOption]
        | succ n => simpa using hidx n

/-- C3: batch result sequences have the length of the input item sequence
and are aligned index-by-index with the items — for the sequential
`AsyncBatchNode` (whenever its execute resolves) and for the parallel
`AsyncParallelBatchNode` with any positive concurrency bound (where
`results[i]` is the settled outcome of `items[i]`). -/
theorem c3_batch_length_order (f : α → Except String β) (items : List α) :
    (∀ rs, AsyncBatchNode.exec_async f items = Except.ok rs →
      rs.length = items.length ∧
      ∀ i : Nat, rs[i]? = (items[i]?).bind (fun x => (f x).toOption)) ∧
    (∀ limit, 0 < limit →
      (AsyncParallelBatchNode.exec_async f limit items).length = items.length ∧
      ∀ i : Nat, (AsyncParallelBatchNode.exec_async f limit items)[i]?
        = (items[i]?).map (AsyncParallelBatchNode.settleItem f)) := by
  constructor
  · intro rs h
    exact seq_exec_ok_spec f items rs h
  · intro limit hl
    rw [parallel_exec_eq_map f limit hl items]
    constructor
    · simp
    · intro i
      simp [List.getElem?_map]

/-- The doubling item processor used in the C3 witness. -/
def c3Double : Nat → Except String Nat := fun n => Except.ok (2 * n)

/-- C3 witness: the theorem applied to concrete batches — sequential over
`[1,2,3]` (results `[2,4,6]`) and parallel with bound 2 over `[1..5]`. -/
theorem c3_witness :
    ([2, 4, 6] : List Nat).length = ([1, 2, 3] : List Nat).length ∧
    (AsyncParallelBatchNode.exec_async c3Double 2 [1, 2, 3, 4, 5]).length = 5 ∧
    (AsyncParallelBatchNode.exec_async c3Double 2 [1, 2, 3, 4, 5])[3]? = some (some 8) := by
  have h3 := c3_batch_length_order c3Double [1, 2, 3]
  have h5 := c3_batch_length_order c3Double [1, 2, 3, 4, 5]
  refine ⟨(h3.1 [2, 4, 6] rfl).1, (h5.2 2 (by decide)).1, ?_⟩
  exact ((h5.2 2 (by decide)).2 3).trans rfl

/-- When a per-item fallback is present, the delayed batch loop recovers
each rejected item with the fallback's value. -/
theorem delayLoop_with_fallback (g : α → Except String β)
    (fb : α → String → Except String β) :
    ∀ items, EnhancedBatchFlow.delayLoop g (some fb) items
      = tryMapWithFallback g fb items := by
  intro items
  induction items with
  | nil => rfl
  | cons x xs ih =>
    simp only [EnhancedBatchFlow.delayLoop, tryMapWithFallback]
    cases hgx : g x with
    | ok r => simp [ih]
    | error e =>
      cases hfb : fb x e with
      | ok r => simp [hfb, ih]
      | error e1 => simp [hfb]

/-- With no per-item fallback, the delayed batch loop has exactly the
abort-on-first-failure semantics of sequential batch execution. -/
theorem delayLoop_no_fallback (g : α → Except String β) :
    ∀ items, EnhancedBatchFlow.delayLoop g none items
      = AsyncBatchNode.exec_async g items := by
  intro items
  induction items with
  | nil => rfl
  | cons x xs ih =>
    simp only [EnhancedBatchFlow.delayLoop, AsyncBatchNode.exec_async]
    cases hgx : g x with
    | ok r => simp [ih]
    | error e => rfl

/-- The item processor for the C4 counterexample: item 2 rejects, all
others resolve `n * 10`. -/
def c4Fail : Nat → Except String Nat := fun n =>
  if n = 2 then Except.error "item 2 failed" else Except.ok (n * 10)

/-- C4, counterexample.  In concurrent batch execution
(`AsyncParallelBatchNode.exec_async`), the failing item 2 neither has a
per-item fallback applied nor aborts the batch: the run completes with a
full-length result sequence in which the failed item's slot holds the
`null` placeholder. -/
theorem c4_counterexample :
    AsyncParallelBatchNode.exec_async c4Fail 5 [1, 2, 3] = [some 10, none, some 30] ∧
    (AsyncParallelBatchNode.exec_async c4Fail 5 [1, 2, 3]).length = 3 := by
  exact ⟨rfl, rfl⟩

/-- C4 (amended): in concurrent batch execution a failed item contributes
the `null` placeholder and the batch completes at full length; the per-item
fallback-else-abort policy holds instead in the sequential delayed path
(`EnhancedBatchFlow.runWithDelays`): with a fallback present each rejected
item is recovered by it, and with no fallback the first rejection aborts
the batch. -/
theorem c4_amended {α β α2 β2 : Type} (f : α → Except String β)
    (limit : Nat) (items : List α) (i : Nat) (x : α) (e : String)
    (hl : 0 < limit) (hx : items[i]? = some x) (hf : f x = Except.error e)
    (g : α2 → Except String β2) (fb : α2 → String → Except String β2)
    (items2 : List α2) :
    ((AsyncParallelBatchNode.exec_async f limit items)[i]? = some none ∧
     (AsyncParallelBatchNode.exec_async f limit items).length = items.length) ∧
    EnhancedBatchFlow.delayLoop g (some fb) items2 = tryMapWithFallback g fb items2 ∧
    EnhancedBatchFlow.delayLoop g none items2 = AsyncBatchNode.exec_async g items2 := by
  refine ⟨⟨?_, ?_⟩, delayLoop_with_fallback g fb items2, delayLoop_no_fallback g items2⟩
  · rw [parallel_exec_eq_map f limit hl items]
    simp [List.getElem?_map, hx, AsyncParallelBatchNode.settleItem, hf]
  · rw [parallel_exec_eq_map f limit hl items]
    simp

/-- Item processor for the C4 witness's sequential part: item 9 rejects. -/
def c4G : Nat → Except String Nat := fun n =>
  if n = 9 then Except.error "g9" else Except.ok n

/-- Per-item fallback for the C4 witness: always recovers with 99. -/
def c4Fb : Nat → String → Except String Nat := fun _ _ => Except.ok 99

/-- C4 witness: the amended theorem at concrete inputs — the parallel batch
holds `null` at the failed index, the delayed loop with fallback recovers
item 9 as 99, and without fallback it aborts with item 9's error. -/
theorem c4_amended_witness :
    (AsyncParallelBatchNode.exec_async c4Fail 5 [1, 2, 3])[1]? = some none ∧
    EnhancedBatchFlow.delayLoop c4G (some c4Fb) [9, 1] = Except.ok [99, 1] ∧
    EnhancedBatchFlow.delayLoop c4G none [9, 1] = Except.error "g9" := by
  have h := c4_amended c4Fail 5 [1, 2, 3] 1 2 "item 2 failed"
    (by decide) rfl rfl c4G c4Fb [9, 1]
  exact ⟨h.1.1, h.2.1.trans rfl, h.2.2.trans rfl⟩

/-- An `AsyncBatchNode` as driven by the `AsyncNode` engine: its
`exec_async` runs the sequential per-item batch over the prepared items (a
resolved results array is a defined value, never `undefined`), with the
inherited default retry configuration and re-raising fallback. -/
def AsyncBatchNode.toAsyncNode (f : α → Except String β)
    (prep : σ → Except String (List α × σ))
    (post : σ → List α → Option (List β) → Except String (Option String × σ)) :
    AsyncNode σ (List α) (List β) where
  max_retries := 1
  wait := 0
  prep_async := prep
  exec_async := fun _ items =>
    match AsyncBatchNode.exec_async f items with
    | Except.error e => Except.error e
    | Except.ok rs => Except.ok (some rs)
  exec_fallback_async := fun _ e => Except.error e
  post_async := post

/-- The batch processor for the C8 counterexample: empty preparation, no
fallback, and a post that reports which shape of results argument it
received. -/
def c8CexProc : EnhancedBatchProcessor Nat Nat Nat where
  prep := fun _ => Except.ok []
  exec := fun x => Except.ok x
  execFallback := none
  post := fun s _ er =>
    Except.ok (some (match er with
      | none => "results-undefined"
      | some [] => "results-empty"
      | some _ => "results-nonempty"), s)

/-- C8, counterexample.  In `EnhancedBatchFlow.runWithDelays`, when
`prepare` yields the empty item sequence the short-circuit calls
`post(shared, [], undefined)`: post-processing observes the `undefined`
sentinel as its results argument, not an empty results sequence. -/
theorem c8_counterexample :
    EnhancedBatchFlow.runWithDelays c8CexProc 0
      = Except.ok (some "results-undefined", 0) := by
  rfl

/-- C8 (amended): on an empty prepared item sequence no per-item processing
is ever invoked and the run completes through post-processing — which in
the `AsyncBatchNode` pipeline receives an empty results sequence, but in
`EnhancedBatchFlow.runWithDelays` receives the `undefined` sentinel as its
results argument.  Non-invocation is expressed as irrelevance of the item
processor. -/
theorem c8_amended {σ α β : Type} (f : α → Except String β)
    (prep : σ → Except String (List α × σ))
    (post : σ → List α → Option (List β) → Except String (Option String × σ))
    (shared s1 : σ)
    (hprep : prep shared = Except.ok ([], s1)) :
    (AsyncBatchNode.toAsyncNode f prep post).run_async shared = post s1 [] (some []) ∧
    (∀ g, (AsyncBatchNode.toAsyncNode g prep post).run_async shared
      = (AsyncBatchNode.toAsyncNode f prep post).run_async shared) ∧
    (∀ (proc : EnhancedBatchProcessor σ α β) (sh : σ),
      proc.prep sh = Except.ok [] →
      EnhancedBatchFlow.runWithDelays proc sh = proc.post sh [] none ∧
      ∀ g2, EnhancedBatchFlow.runWithDelays { proc with exec := g2 } sh
        = EnhancedBatchFlow.runWithDelays proc sh) := by
  have hone : ∀ (g : α → Except String β),
      (AsyncBatchNode.toAsyncNode g prep post).run_async shared
        = post s1 [] (some []) := by
    intro g
    exact run_async_no_fallback (AsyncBatchNode.toAsyncNode g prep post)
      shared [] s1 [] hprep rfl
  refine ⟨hone f, fun g => (hone g).trans (hone f).symm, ?_⟩
  intro proc sh hp
  constructor
  · simp [EnhancedBatchFlow.runWithDelays, hp]
  · intro g2
    simp [EnhancedBatchFlow.runWithDelays, hp]

/-- Prepare step for the C8 witness: no items in the store. -/
def c8Prep : Nat → Except String (List Nat × Nat) := fun s => Except.ok ([], s)

/-- Post step for the C8 witness: reports the shape of the results value it
received. -/
def c8Post : Nat → List Nat → Option (List Nat) → Except String (Option String × Nat) :=
  fun s _ er =>
    Except.ok (some (match er with
      | some [] => "empty-results"
      | some _ => "nonempty-results"
      | none => "undefined-results"), s)

/-- C8 witness: the amended theorem at concrete inputs — the
`AsyncBatchNode` pipeline post-processes an empty results sequence, while
`runWithDelays` post-processes the `undefined` sentinel. -/
theorem c8_amended_witness :
    (AsyncBatchNode.toAsyncNode (fun n : Nat => Except.ok (n + 1)) c8Prep c8Post).run_async 0
      = Except.ok (some "empty-results", 0) ∧
    EnhancedBatchFlow.runWithDelays c8CexProc 0 = c8CexProc.post 0 [] none := by
  have h := c8_amended (fun n : Nat => Except.ok (n + 1)) c8Prep c8Post 0 0 rfl
  exact ⟨h.1.trans rfl, (h.2.2 c8CexProc 0 rfl).1⟩

/-- C10: with no stored shared object, `AsyncBatchFlow.exec_async` runs the
inner flow once per parameter set, each time against the freshly created
empty store: every iteration's outcome is the one run of the flow on the
empty store (so the parameter sets are ignored and no iteration observes
another's writes), and a rejected inner run rejects the batch at the first
iteration.  The caller's shared store is not an input of the batch execute
at all, so its contents are untouched. -/
theorem c10_fresh_store_isolation (flow : AsyncFlow σ π ρ) (fuel : Nat)
    (emptyStore : σ) (prep_res : List (List (String × JSVal))) :
    AsyncBatchFlow.exec_async flow fuel none emptyStore prep_res =
      if prep_res.isEmpty then Except.ok []
      else
        match flow.run_async fuel emptyStore with
        | FlowOutcome.err e _ => Except.error e
        | out => Except.ok (List.replicate prep_res.length out) := by
  induction prep_res with
  | nil => rfl
  | cons p ps ih =>
    simp only [AsyncBatchFlow.exec_async] at ih ⊢
    cases hrun : flow.run_async fuel (Option.getD none emptyStore) with
    | err e v =>
      simp only [AsyncBatchFlow.execLoop, hrun]
      simp only [Option.getD] at hrun
      simp [hrun, List.isEmpty]
    | ok sh a v =>
      simp only [AsyncBatchFlow.execLoop, hrun, ih]
      simp only [Option.getD] at hrun
      cases ps with
      | nil => simp [hrun, List.isEmpty, List.replicate]
      | cons q qs =>
        simp only [List.isEmpty]
        rw [hrun]
        simp [List.replicate, List.length_cons]
    | fuelOut sh v =>
      simp only [AsyncBatchFlow.execLoop, hrun, ih]
      simp only [Option.getD] at hrun
      cases ps with
      | nil => simp [hrun, List.isEmpty, List.replicate]
      | cons q qs =>
        simp only [List.isEmpty]
        rw [hrun]
        simp [List.replicate, List.length_cons]

